import Mathlib

/-!
Verification of the PodCraft audio/CRUD layer.

This file gives a shallow embedding, in Lean 4, of the parts of the
PodCraft repository that the specification discusses:

* `generatePodcastAudio` (src/src/services/geminiService.ts): chunking the
  script into fixed-size pieces, issuing the TTS requests in bounded
  parallel batches with a retry/backoff loop, reassembling the raw PCM
  chunks in original order, and re-encoding the combined PCM.
  The external TTS call is modelled by an oracle
  `att : Nat → Nat → Except String (List Nat)` giving, for a chunk index
  and an attempt number, either the decoded PCM bytes of the response
  (the code decodes the base64 payload with `atob` into a `Uint8Array`;
  we model that byte array directly) or the thrown error.  The
  nondeterministic completion order of the requests inside a
  `Promise.all` batch is modelled by an arbitrary permutation `reorder`
  applied to the collected results.  The final `btoa` call and the
  `onProgress` callback are outside the model: all properties below are
  about the binary string (list of char codes) handed to `btoa`.
* `createWavBlob` (src/unnamed/part_003): the 44-byte WAV header writes
  onto a `DataView` and the PCM payload copy.  Bytes are `Nat` values,
  buffers are `List Nat`, and each `setUint16`/`setUint32`/`writeString`
  call becomes an (offset, little-endian bytes) write.
* the Express handlers `DELETE /api/speakers/:id` and
  `POST /api/extract-pdf` (src/server.ts), with the SQLite table as a
  list of rows and `pdf-parse` as an oracle.
-/

/-! ## Data model (src/src/types.ts) -/

/-- The `Voice` enum of src/src/types.ts. -/
inductive Voice where
  | puck
  | charon
  | kore
  | fenrir
  | zephyr
deriving DecidableEq, Repr

/-- The string value carried by each `Voice` enum member. -/
def voiceName : Voice → String
  | Voice.puck => "Puck"
  | Voice.charon => "Charon"
  | Voice.kore => "Kore"
  | Voice.fenrir => "Fenrir"
  | Voice.zephyr => "Zephyr"

/-- The `Speaker` interface of src/src/types.ts.  Optional fields become
`Option`. -/
structure Speaker where
  id : Option Nat := none
  name : String
  voice : Voice
  profession : String
  tone : String
  mode : String
  choiceOfWords : String
  behavior : String
  isPrebuilt : Option Bool := none
  pitch : Option String := none
  speed : Option String := none
  emotion : Option String := none
  clonedVoiceData : Option String := none
  gender : Option String := none
  accent : Option String := none
  language : Option String := none
deriving DecidableEq, Repr

/-- The `PodcastScriptLine` interface of src/src/types.ts. -/
structure PodcastScriptLine where
  speakerName : String
  text : String
deriving DecidableEq, Repr

/-- The `PodcastScript` interface of src/src/types.ts. -/
structure PodcastScript where
  title : String
  lines : List PodcastScriptLine
  showNotes : Option String := none
  coverImageUrl : Option String := none
deriving DecidableEq, Repr

/-! ## JavaScript-expression helpers -/

/-- JavaScript `v || d` on an optional string: `undefined` and the empty
string are falsy and fall through to the default. -/
def jsOr (v : Option String) (d : String) : String :=
  match v with
  | none => d
  | some s => if s = "" then d else s

/-- JavaScript `hay.includes(needle)` for a nonempty needle, via
`String.splitOn`: the needle occurs iff splitting on it produces more
than one piece. -/
def jsIncludes (hay needle : String) : Bool :=
  (hay.splitOn needle).length != 1

/-! ## generatePodcastAudio: prompt construction
(src/src/services/geminiService.ts lines 146-210) -/

/-- The modulation instruction string built for one speaker
(geminiService.ts lines 147-153). -/
def speakerModulation (s : Speaker) : String :=
  let modulation := "[Pitch: " ++ jsOr s.pitch "medium" ++ ", Speed: " ++
    jsOr s.speed "normal" ++ ", Emotion: " ++ jsOr s.emotion "neutral" ++
    ", Accent: " ++ jsOr s.accent "Neutral" ++ ", Language: " ++
    jsOr s.language "English" ++ "]"
  if jsIncludes s.mode.toLower "storytell" then
    modulation ++ " - STORYTELLING MODE: Adopt a highly expressive and dynamic vocal delivery suitable for narrative content. Vary your pacing, heavily emphasize key narrative words, use dramatic pauses, and maintain a deeply emotive tone to captivate the listener."
  else
    modulation

/-- The joined `speakerInstructions` string (geminiService.ts line 147). -/
def speakerInstructions (speakers : List Speaker) : String :=
  String.intercalate "\n" (speakers.map (fun s => s.name ++ ": " ++ speakerModulation s))

/-- The `speakerVoiceConfigs` mapping of speaker names to prebuilt voice
names (geminiService.ts lines 156-161). -/
def speakerVoiceConfigs (speakers : List Speaker) : List (String × String) :=
  speakers.map (fun s => (s.name, voiceName s.voice))

/-- The `(emotion) ` prefix text put before a line when the matched
speaker has a truthy emotion other than `neutral`
(geminiService.ts line 178). -/
def emotionPrefixOf (speakers : List Speaker) (line : PodcastScriptLine) : String :=
  match speakers.find? (fun s => s.name == line.speakerName) with
  | none => ""
  | some sp =>
    match sp.emotion with
    | none => ""
    | some e => if e != "" && e != "neutral" then "(" ++ e ++ ") " else ""

/-- The `(in a ... accent) ` prefix text put before a line when the
matched speaker has a truthy accent other than `Neutral`
(geminiService.ts line 179). -/
def accentPrefixOf (speakers : List Speaker) (line : PodcastScriptLine) : String :=
  match speakers.find? (fun s => s.name == line.speakerName) with
  | none => ""
  | some sp =>
    match sp.accent with
    | none => ""
    | some a => if a != "" && a != "Neutral" then "(in a " ++ a ++ " accent) " else ""

/-- The `conversation` text of one chunk: each line rendered as
`name: accentPrefix emotionPrefix text`, joined with newlines
(geminiService.ts lines 176-181). -/
def conversationOf (speakers : List Speaker) (chunkLines : List PodcastScriptLine) : String :=
  String.intercalate "\n"
    (chunkLines.map (fun line =>
      line.speakerName ++ ": " ++ accentPrefixOf speakers line ++
        emotionPrefixOf speakers line ++ line.text))

/-- The TTS prompt template for one chunk (geminiService.ts lines
183-208), with the title, part number, speaker instructions and
conversation interpolated.  Leading indentation of the template literal
is kept as a single newline per line. -/
def mkChunkPrompt (script : PodcastScript) (speakers : List Speaker)
    (chunkLines : List PodcastScriptLine) (chunkIndex : Nat) : String :=
  "\nTTS the following conversation for a podcast titled \"" ++ script.title ++ "\".\n" ++
  "This is part " ++ toString (chunkIndex + 1) ++ " of the podcast.\n\n" ++
  "Voice Modulation Instructions:\n" ++ speakerInstructions speakers ++ "\n\n" ++
  "IMPORTANT PERFORMANCE INSTRUCTIONS:\n" ++
  "- CRITICAL VOICE CONSISTENCY: You MUST maintain the exact same voice timbre, pitch, accent, and character persona for each speaker as established. Do not let the voices drift or change.\n" ++
  "- GENDER ADHERENCE: Respect the specified gender for each speaker. If a male speaker is assigned a voice that sounds female (or vice versa), you MUST modify the pitch and timbre to match the requested gender as closely as possible.\n" ++
  "- ACCENT ENFORCEMENT: The requested accents are CRITICAL. If a speaker has a \"British\" accent, they MUST sound British. If \"Southern US\", they MUST sound Southern. Do not revert to the default American accent of the base voice.\n" ++
  "- This is a HIGH-QUALITY, HUMAN-LIKE podcast.\n" ++
  "- Speak in the specified language and apply the requested accent naturally.\n" ++
  "- Use natural prosody, breathing, and pauses throughout. Avoid a robotic or monotone delivery.\n" ++
  "- PAUSES & BREATHS: When you see ellipses (\"...\"), take a natural pause, hesitate, or take an audible breath.\n" ++
  "- VOCALIZATIONS: Interpret words like \"Hahaha\", \"Heh\", \"Ugh\", \"Phew\", \"Hmm\", \"Haaaah\" with rich emotional vocalizations (actual laughing, sighing, exhaling), do not just read them as flat text.\n" ++
  "- STUTTERING: When you see repeated letters (e.g., \"I-I-I\" or \"W-wait\"), perform them as genuine human stuttering or hesitation.\n" ++
  "- Make fillers (\"um\", \"uh\") sound natural, not read.\n" ++
  "- INTERRUPTIONS: When a line ends with an em-dash (\"--\"), the speaker is being interrupted. You MUST NOT leave any pause or silence between this line and the next. The next speaker\x27s audio MUST overlap and start instantly, cutting off the previous speaker abruptly.\n" ++
  "- YELLING: When text is written in ALL CAPS, the speaker MUST raise their volume and yell or shout the words aggressively.\n" ++
  "- Backchanneling (\"mhm\", \"yeah\") should be soft and supportive, and should happen quickly without breaking the flow.\n" ++
  "- False starts should sound like genuine hesitation and correction.\n\n" ++
  "Conversation:\n" ++ conversationOf speakers chunkLines ++ "\n"

/-! ## generatePodcastAudio: chunking
(geminiService.ts lines 163-210) -/

/-- `const CHUNK_SIZE = 10` (geminiService.ts line 163). -/
def CHUNK_SIZE : Nat := 10

/-- `const PARALLEL_LIMIT = 3` (geminiService.ts line 164). -/
def PARALLEL_LIMIT : Nat := 3

/-- `totalChunks = Math.ceil(script.lines.length / CHUNK_SIZE)`
(geminiService.ts line 169), as the natural-number ceiling. -/
def totalChunks (script : PodcastScript) : Nat :=
  (script.lines.length + CHUNK_SIZE - 1) / CHUNK_SIZE

/-- The successive `script.lines.slice(i, i + CHUNK_SIZE)` pieces taken
by the chunking loop (geminiService.ts lines 173-175): the list of
line-chunks, in order. -/
def chunkedLines : List PodcastScriptLine → List (List PodcastScriptLine)
  | [] => []
  | l :: ls =>
    (List.take CHUNK_SIZE (l :: ls)) :: chunkedLines (List.drop CHUNK_SIZE (l :: ls))
termination_by ls => ls.length
decreasing_by simp [CHUNK_SIZE]; omega

/-- The chunk-prompt building loop (geminiService.ts lines 172-210):
`i` is the running line index (stepping by `CHUNK_SIZE`), the produced
pair is `{ index: Math.floor(i / CHUNK_SIZE), prompt }`. -/
def chunkPromptsAux (script : PodcastScript) (speakers : List Speaker) :
    List PodcastScriptLine → Nat → List (Nat × String)
  | [], _ => []
  | l :: ls, i =>
    (i / CHUNK_SIZE,
      mkChunkPrompt script speakers (List.take CHUNK_SIZE (l :: ls)) (i / CHUNK_SIZE)) ::
      chunkPromptsAux script speakers (List.drop CHUNK_SIZE (l :: ls)) (i + CHUNK_SIZE)
termination_by ls => ls.length
decreasing_by simp [CHUNK_SIZE]; omega

/-- The pre-calculated `chunkPrompts` array (geminiService.ts line 172),
built by the loop starting at line index 0. -/
def chunkPrompts (script : PodcastScript) (speakers : List Speaker) : List (Nat × String) :=
  chunkPromptsAux script speakers script.lines 0

/-- The batching loop `for (i = 0; i < chunkPrompts.length;
i += PARALLEL_LIMIT) ... chunkPrompts.slice(i, i + PARALLEL_LIMIT)`
(geminiService.ts lines 216-217): the successive batches, in order. -/
def batches {α : Type} : List α → List (List α)
  | [] => []
  | p :: ps =>
    (List.take PARALLEL_LIMIT (p :: ps)) :: batches (List.drop PARALLEL_LIMIT (p :: ps))
termination_by ps => ps.length
decreasing_by simp [PARALLEL_LIMIT]; omega

/-! ## generatePodcastAudio: per-chunk retry loop
(geminiService.ts lines 219-262) -/

/-- Observable events of the retry loop: a numbered attempt at the TTS
request, and the random-backoff wait
(`await new Promise(resolve => setTimeout(...))`). -/
inductive RetryEv where
  | att : Nat → RetryEv
  | sleep : RetryEv
deriving DecidableEq, Repr

/-- Whether a retry event is an attempt. -/
def isAttemptEv : RetryEv → Bool
  | RetryEv.att _ => true
  | RetryEv.sleep => false

/-- The `while (retries > 0 && !success)` loop of geminiService.ts lines
223-261, for one chunk.  `a k` is the outcome of the k-th try (the
decoded audio bytes, or the thrown error; a missing
`inlineData.data` throws "No audio data returned" and is one of the
error outcomes).  On failure the code decrements `retries`, throws the
error when it hits 0, and otherwise sleeps (random backoff) and loops.
The `0` case is the loop being entered without retries left; it cannot
be reached from the initial `retries = 3`. -/
def retryLoop (a : Nat → Except String (List Nat)) :
    Nat → Nat → List RetryEv × Except String (List Nat)
  | 0, _ => ([], Except.error "retry loop entered with no retries left")
  | retries + 1, k =>
    match a k with
    | Except.ok d => ([RetryEv.att k], Except.ok d)
    | Except.error e =>
      if retries = 0 then
        ([RetryEv.att k], Except.error e)
      else
        let rest := retryLoop a retries (k + 1)
        (RetryEv.att k :: RetryEv.sleep :: rest.1, rest.2)

/-- One chunk's processing: `let retries = 3` (geminiService.ts line
220) and the retry loop, starting at attempt 0.  Returns the event trace
and the chunk's result. -/
def attemptChunk (a : Nat → Except String (List Nat)) :
    List RetryEv × Except String (List Nat) :=
  retryLoop a 3 0

/-! ## generatePodcastAudio: bounded-parallel batch processing
(geminiService.ts lines 212-263) -/

/-- Processing of one `Promise.all` batch (geminiService.ts line 219):
every chunk of the batch runs its retry loop; a chunk that exhausts its
retries rejects the whole batch.  Successful chunks contribute
`{ index, data }` results. -/
def processBatch (att : Nat → Nat → Except String (List Nat)) :
    List (Nat × String) → Except String (List (Nat × List Nat))
  | [] => Except.ok []
  | p :: ps =>
    match (attemptChunk (att p.1)).2 with
    | Except.error e => Except.error e
    | Except.ok d =>
      match processBatch att ps with
      | Except.error e => Except.error e
      | Except.ok rest => Except.ok ((p.1, d) :: rest)

/-- The sequential outer loop over batches (geminiService.ts lines
216-263): each batch is fully awaited before the next starts; the
results of all batches accumulate into one list. -/
def processBatches (att : Nat → Nat → Except String (List Nat)) :
    List (List (Nat × String)) → Except String (List (Nat × List Nat))
  | [] => Except.ok []
  | b :: bs =>
    match processBatch att b with
    | Except.error e => Except.error e
    | Except.ok rs =>
      match processBatches att bs with
      | Except.error e => Except.error e
      | Except.ok rest => Except.ok (rs ++ rest)

/-! ## generatePodcastAudio: in-flight request trace
(for the bounded-parallelism claim) -/

/-- Request lifecycle events: a chunk request is issued, a chunk request
completes. -/
inductive Ev where
  | started : Nat → Ev
  | finished : Nat → Ev
deriving DecidableEq, Repr

/-- The effect of one event on the number of in-flight requests. -/
def inFlightStep (c : Nat) (e : Ev) : Nat :=
  match e with
  | Ev.started _ => c + 1
  | Ev.finished _ => c - 1

/-- The event trace of the batch loop: within a batch all requests are
issued together (`Promise.all(batch.map(...))`) and the loop `await`s
them all before the next batch starts, so each batch contributes its
starts followed by its completions.  This is the maximal-concurrency
schedule: any actual completion interleaving inside a batch keeps the
in-flight count at or below this trace's. -/
def batchTrace (bs : List (List (Nat × String))) : List Ev :=
  (bs.map (fun b => b.map (fun p => Ev.started p.1) ++ b.map (fun p => Ev.finished p.1))).flatten

/-- Maximal in-flight count along a trace, with current count `c` and
running maximum `m`. -/
def maxInFlightAux : List Ev → Nat → Nat → Nat
  | [], _, m => m
  | e :: tr, c, m =>
    let c2 := inFlightStep c e
    maxInFlightAux tr c2 (max m c2)

/-- Maximal number of requests simultaneously in flight along a trace. -/
def maxInFlight (tr : List Ev) : Nat :=
  maxInFlightAux tr 0 0

/-- Number of requests still in flight after a whole trace. -/
def inFlightEnd (tr : List Ev) : Nat :=
  tr.foldl inFlightStep 0

/-! ## generatePodcastAudio: reassembly and re-encoding
(geminiService.ts lines 265-288) -/

/-- The `results.sort((a, b) => a.index - b.index)` step
(geminiService.ts line 266): a comparison sort by ascending chunk
index. -/
def sortResults (results : List (Nat × List Nat)) : List (Nat × List Nat) :=
  results.mergeSort (fun a b => decide (a.1 ≤ b.1))

/-- The PCM concatenation loop (geminiService.ts lines 274-280): the
chunks are copied one after the other into a combined array; copying at
increasing offsets is appending. -/
def combinePcm (pcmChunks : List (List Nat)) : List Nat :=
  pcmChunks.foldl (fun acc chunk => acc ++ chunk) []

/-- The base64 re-encoding loop (geminiService.ts lines 283-287): the
binary string is built from `combinedPcm.subarray(i, i + 0x8000)` slices
(`String.fromCharCode` maps each byte to the char with that code; chars
are represented by their codes, so a slice maps to itself). -/
def chunkedConcat : List Nat → List Nat
  | [] => []
  | b :: bs =>
    (List.take 0x8000 (b :: bs)) ++ chunkedConcat (List.drop 0x8000 (b :: bs))
termination_by bs => bs.length
decreasing_by simp; omega

/-- Modelled from the spec (claim C9's reference point): building the
binary string by mapping each byte of the combined array to its
character one at a time. -/
def binaryOneByOne (combinedPcm : List Nat) : List Nat :=
  combinedPcm.map (fun b => b)

/-- The whole audio pipeline of `generatePodcastAudio`
(geminiService.ts lines 140-293): chunk prompts, batched processing,
nondeterministic completion order (`reorder`), sort by index,
emptiness check, PCM concatenation, and the chunked re-encoding into the
binary string handed to `btoa`.  A rejection anywhere propagates (the
outer `catch` logs and rethrows). -/
def generatePodcastAudio (script : PodcastScript) (speakers : List Speaker)
    (att : Nat → Nat → Except String (List Nat))
    (reorder : List (Nat × List Nat) → List (Nat × List Nat)) :
    Except String (List Nat) :=
  let prompts := chunkPrompts script speakers
  match processBatches att (batches prompts) with
  | Except.error e => Except.error e
  | Except.ok rs =>
    let results := sortResults (reorder rs)
    let pcmChunks := results.map (fun r => r.2)
    if pcmChunks.length = 0 then
      Except.error "Failed to generate audio. No audio data returned."
    else
      Except.ok (chunkedConcat (combinePcm pcmChunks))

/-! ## createWavBlob (src/unnamed/part_003 lines 136-179) -/

/-- Little-endian bytes of a `DataView.setUint16(..., true)` write: the
value is truncated to 16 bits. -/
def u16le (v : Nat) : List Nat :=
  [v % 256, v / 256 % 256]

/-- Little-endian bytes of a `DataView.setUint32(..., true)` write: the
value is truncated to 32 bits. -/
def u32le (v : Nat) : List Nat :=
  [v % 256, v / 256 % 256, v / 65536 % 256, v / 16777216 % 256]

/-- The bytes written by `writeString` (part_003 lines 175-179): one
byte per character, the character's code. -/
def strBytes (s : String) : List Nat :=
  s.data.map (fun c => c.toNat)

/-- The fifteen-or-so header writes of `createWavBlob` (part_003 lines
140-165), in source order: each element is one `writeString`/`setUint16`/
`setUint32` call, as (byte offset, little-endian bytes). -/
def wavHeaderWrites (n sampleRate : Nat) : List (Nat × List Nat) :=
  [ (0, strBytes "RIFF"),
    (4, u32le (36 + n)),
    (8, strBytes "WAVE"),
    (12, strBytes "fmt "),
    (16, u32le 16),
    (20, u16le 1),
    (22, u16le 1),
    (24, u32le sampleRate),
    (28, u32le (sampleRate * 2)),
    (32, u16le 2),
    (34, u16le 16),
    (36, strBytes "data"),
    (40, u32le n) ]

/-- A `DataView`/`Uint8Array.set` write of `bs` at offset `off` into a
buffer (in-range writes only, as in the source). -/
def writeBytesAt (buf : List Nat) (off : Nat) (bs : List Nat) : List Nat :=
  List.take off buf ++ bs ++ List.drop (off + bs.length) buf

/-- `createWavBlob(pcmData, sampleRate)` (part_003 lines 136-173): an
`ArrayBuffer(44 + pcmData.byteLength)` of zeros, the header writes, then
the PCM payload copied at offset 44.  The result is the blob's byte
sequence. -/
def createWavBlob (pcmData : List Nat) (sampleRate : Nat) : List Nat :=
  let buffer := List.replicate (44 + pcmData.length) 0
  let withHeader :=
    (wavHeaderWrites pcmData.length sampleRate).foldl
      (fun b w => writeBytesAt b w.1 w.2) buffer
  writeBytesAt withHeader 44 pcmData

/-- The 44 header bytes of a WAV blob, in order: the concatenation of
the header writes' bytes (the writes are contiguous). -/
def wavHeaderBytes (n sampleRate : Nat) : List Nat :=
  ((wavHeaderWrites n sampleRate).map (fun w => w.2)).flatten

/-- Little-endian 16-bit read at an offset. -/
def readU16 (buf : List Nat) (off : Nat) : Nat :=
  buf.getD off 0 + 256 * buf.getD (off + 1) 0

/-- Little-endian 32-bit read at an offset. -/
def readU32 (buf : List Nat) (off : Nat) : Nat :=
  buf.getD off 0 + 256 * buf.getD (off + 1) 0 + 65536 * buf.getD (off + 2) 0 +
    16777216 * buf.getD (off + 3) 0

/-! ## Express server handlers (src/server.ts) -/

/-- One row of the `speakers` SQLite table (server.ts lines 18-37).
`isPrebuilt` is the stored integer (`DEFAULT 0`). -/
structure SpeakerRow where
  id : Nat
  name : String
  voice : String
  profession : Option String := none
  tone : Option String := none
  mode : Option String := none
  choiceOfWords : Option String := none
  behavior : Option String := none
  isPrebuilt : Nat := 0
  pitch : Option String := some "medium"
  speed : Option String := some "normal"
  emotion : Option String := some "neutral"
  clonedVoiceData : Option String := none
  gender : Option String := some "non-binary"
  accent : Option String := some "Neutral"
  language : Option String := some "English"
deriving DecidableEq, Repr

/-- The JSON body sent by the delete handler (server.ts line 118). -/
structure DeleteResponse where
  success : Bool
deriving DecidableEq, Repr

/-- The `DELETE /api/speakers/:id` handler (server.ts lines 116-119):
`DELETE FROM speakers WHERE id = ? AND isPrebuilt = 0`, then
`res.json({ success: true })`.  Returns the table after the statement
and the response. -/
def deleteSpeakerHandler (db : List SpeakerRow) (id : Nat) :
    List SpeakerRow × DeleteResponse :=
  (db.filter (fun r => !(r.id == id && r.isPrebuilt == 0)), { success := true })

/-- An uploaded file as multer presents it (memory storage): the
original name and the buffer contents. -/
structure UploadedFile where
  originalname : String
  buffer : List Nat
deriving DecidableEq, Repr

/-- The three possible responses of the extract-pdf handler. -/
inductive ExtractPdfResponse where
  | badRequest : String → ExtractPdfResponse
  | serverError : String → ExtractPdfResponse
  | ok : List (String × String) → ExtractPdfResponse
deriving DecidableEq, Repr

/-- The sequential `for (const file of req.files)` extraction loop
(server.ts lines 127-130): `extract` models `pdf(file.buffer)`, which
either resolves to the parsed text or rejects; a rejection aborts the
loop. -/
def extractLoop (extract : UploadedFile → Except String String) :
    List UploadedFile → Except String (List (String × String))
  | [] => Except.ok []
  | f :: fs =>
    match extract f with
    | Except.error e => Except.error e
    | Except.ok text =>
      match extractLoop extract fs with
      | Except.error e => Except.error e
      | Except.ok rest => Except.ok ((f.originalname, text) :: rest)

/-- The `POST /api/extract-pdf` handler (server.ts lines 121-136):
`req.files` missing or empty gives a 400; a rejected extraction gives a
500; otherwise the `{ name, text }` results are returned in upload
order. -/
def extractPdfHandler (files : Option (List UploadedFile))
    (extract : UploadedFile → Except String String) : ExtractPdfResponse :=
  match files with
  | none => ExtractPdfResponse.badRequest "No files uploaded"
  | some fs =>
    if fs.length = 0 then
      ExtractPdfResponse.badRequest "No files uploaded"
    else
      match extractLoop extract fs with
      | Except.error _ => ExtractPdfResponse.serverError "Failed to extract PDF text"
      | Except.ok results => ExtractPdfResponse.ok results

/-! ## Lemmas: chunking -/

theorem chunkedLines_nil : chunkedLines [] = [] := by
  simp [chunkedLines]

theorem chunkedLines_cons (l : PodcastScriptLine) (ls : List PodcastScriptLine) :
    chunkedLines (l :: ls) =
      (List.take CHUNK_SIZE (l :: ls)) :: chunkedLines (List.drop CHUNK_SIZE (l :: ls)) := by
  rw [chunkedLines]

theorem chunkedLines_flatten (L : List PodcastScriptLine) :
    (chunkedLines L).flatten = L := by
  induction L using chunkedLines.induct with
  | case1 => simp [chunkedLines_nil]
  | case2 l ls ih =>
    rw [chunkedLines_cons, List.flatten_cons, ih, List.take_append_drop]

theorem chunkedLines_length (L : List PodcastScriptLine) :
    (chunkedLines L).length = (L.length + CHUNK_SIZE - 1) / CHUNK_SIZE := by
  induction L using chunkedLines.induct with
  | case1 => simp [chunkedLines_nil, CHUNK_SIZE]
  | case2 l ls ih =>
    rw [chunkedLines_cons, List.length_cons, ih]
    simp only [List.length_drop, List.length_cons, CHUNK_SIZE]
    omega

theorem chunkedLines_mem (L : List PodcastScriptLine) (c : List PodcastScriptLine)
    (hc : c ∈ chunkedLines L) : c.length ≤ CHUNK_SIZE ∧ c ≠ [] := by
  induction L using chunkedLines.induct with
  | case1 => simp [chunkedLines_nil] at hc
  | case2 l ls ih =>
    rw [chunkedLines_cons] at hc
    rcases List.mem_cons.mp hc with h | h
    · subst h
      constructor
      · exact List.length_take_le CHUNK_SIZE (l :: ls)
      · simp [CHUNK_SIZE]
    · exact ih h

theorem chunkedLines_eq_nil_iff (L : List PodcastScriptLine) :
    chunkedLines L = [] ↔ L = [] := by
  cases L with
  | nil => simp [chunkedLines_nil]
  | cons l ls => simp [chunkedLines_cons]

theorem chunkedLines_full (L : List PodcastScriptLine) (i : Nat)
    (hi : i + 1 < (chunkedLines L).length) :
    ((chunkedLines L).getD i []).length = CHUNK_SIZE := by
  induction L using chunkedLines.induct generalizing i with
  | case1 => simp [chunkedLines_nil] at hi
  | case2 l ls ih =>
    rw [chunkedLines_cons] at hi ⊢
    cases i with
    | zero =>
      simp only [List.getD_cons_zero]
      have hne : chunkedLines (List.drop CHUNK_SIZE (l :: ls)) ≠ [] := by
        intro h
        rw [h] at hi
        simp at hi
      have hdrop : List.drop CHUNK_SIZE (l :: ls) ≠ [] := by
        intro h
        rw [h, chunkedLines_nil] at hne
        exact hne rfl
      have hlen : CHUNK_SIZE < (l :: ls).length := by
        by_contra h
        push_neg at h
        exact hdrop (List.drop_eq_nil_of_le h)
      simp only [List.length_take, List.length_cons, CHUNK_SIZE] at hlen ⊢
      omega
    | succ j =>
      simp only [List.getD_cons_succ]
      exact ih j (by simpa using hi)

theorem chunkPromptsAux_eq (script : PodcastScript) (speakers : List Speaker)
    (L : List PodcastScriptLine) (j : Nat) :
    chunkPromptsAux script speakers L (CHUNK_SIZE * j) =
      (List.enumFrom j (chunkedLines L)).map
        (fun p => (p.1, mkChunkPrompt script speakers p.2 p.1)) := by
  induction L using chunkedLines.induct generalizing j with
  | case1 => simp [chunkPromptsAux, chunkedLines_nil]
  | case2 l ls ih =>
    rw [chunkPromptsAux, chunkedLines_cons]
    have hdiv : CHUNK_SIZE * j / CHUNK_SIZE = j := by
      simp [CHUNK_SIZE]
    have hstep : CHUNK_SIZE * j + CHUNK_SIZE = CHUNK_SIZE * (j + 1) := by ring
    rw [hdiv, hstep, ih (j + 1)]
    simp [List.enumFrom]

theorem chunkPrompts_eq (script : PodcastScript) (speakers : List Speaker) :
    chunkPrompts script speakers =
      (List.enumFrom 0 (chunkedLines script.lines)).map
        (fun p => (p.1, mkChunkPrompt script speakers p.2 p.1)) := by
  have h := chunkPromptsAux_eq script speakers script.lines 0
  simpa [chunkPrompts] using h

theorem chunkPrompts_length (script : PodcastScript) (speakers : List Speaker) :
    (chunkPrompts script speakers).length = totalChunks script := by
  rw [chunkPrompts_eq]
  simp [totalChunks, chunkedLines_length]

theorem chunkPrompts_map_fst (script : PodcastScript) (speakers : List Speaker) :
    (chunkPrompts script speakers).map Prod.fst = List.range (totalChunks script) := by
  rw [chunkPrompts_eq, List.map_map]
  have h1 : ((List.enumFrom 0 (chunkedLines script.lines)).map
      (Prod.fst ∘ fun p => (p.1, mkChunkPrompt script speakers p.2 p.1))) =
      (List.enumFrom 0 (chunkedLines script.lines)).map Prod.fst := by
    apply List.map_congr_left
    intro p _
    rfl
  rw [h1]
  rw [List.enumFrom_map_fst]
  rw [List.range_eq_range', chunkedLines_length]
  simp [totalChunks]

/-! ## Lemmas: batching and the in-flight trace -/

theorem batches_nil {α : Type} : batches ([] : List α) = [] := by
  simp [batches]

theorem batches_cons {α : Type} (p : α) (ps : List α) :
    batches (p :: ps) =
      (List.take PARALLEL_LIMIT (p :: ps)) :: batches (List.drop PARALLEL_LIMIT (p :: ps)) := by
  rw [batches]

theorem batches_flatten {α : Type} (l : List α) : (batches l).flatten = l := by
  induction l using batches.induct with
  | case1 => simp [batches_nil]
  | case2 p ps ih =>
    rw [batches_cons, List.flatten_cons, ih, List.take_append_drop]

theorem batches_mem_length {α : Type} (l : List α) (b : List α)
    (hb : b ∈ batches l) : b.length ≤ PARALLEL_LIMIT := by
  induction l using batches.induct with
  | case1 => simp [batches_nil] at hb
  | case2 p ps ih =>
    rw [batches_cons] at hb
    rcases List.mem_cons.mp hb with h | h
    · subst h
      exact List.length_take_le PARALLEL_LIMIT (p :: ps)
    · exact ih h

theorem maxInFlightAux_starts (b : List (Nat × String)) (tr : List Ev) (c m : Nat)
    (h : c ≤ m) :
    maxInFlightAux (b.map (fun p => Ev.started p.1) ++ tr) c m =
      maxInFlightAux tr (c + b.length) (max m (c + b.length)) := by
  induction b generalizing c m with
  | nil =>
    simp only [List.map_nil, List.nil_append, List.length_nil, Nat.add_zero]
    congr 1
    omega
  | cons x xs ih =>
    simp only [List.map_cons, List.cons_append, maxInFlightAux, inFlightStep, List.append_eq,
      List.length_cons]
    rw [ih (c + 1) (max m (c + 1)) (by omega)]
    congr 1 <;> omega

theorem maxInFlightAux_finishes (b : List (Nat × String)) (tr : List Ev) (c m : Nat)
    (h : c ≤ m) :
    maxInFlightAux (b.map (fun p => Ev.finished p.1) ++ tr) c m =
      maxInFlightAux tr (c - b.length) m := by
  induction b generalizing c with
  | nil => simp
  | cons x xs ih =>
    simp only [List.map_cons, List.cons_append, maxInFlightAux, inFlightStep, List.append_eq,
      List.length_cons]
    have hmax : max m (c - 1) = m := by omega
    rw [hmax, ih (c - 1) (by omega)]
    congr 1
    omega

theorem maxInFlightAux_batchTrace (bs : List (List (Nat × String))) (m : Nat)
    (h : ∀ b ∈ bs, b.length ≤ PARALLEL_LIMIT) :
    maxInFlightAux (batchTrace bs) 0 m ≤ max m PARALLEL_LIMIT := by
  induction bs generalizing m with
  | nil =>
    simp [batchTrace, maxInFlightAux]
  | cons b bs ih =>
    have hb : b.length ≤ PARALLEL_LIMIT := h b (List.mem_cons_self b bs)
    have hbs : ∀ x ∈ bs, x.length ≤ PARALLEL_LIMIT := fun x hx => h x (List.mem_cons_of_mem b hx)
    simp only [batchTrace, List.map_cons, List.flatten_cons, List.append_assoc]
    rw [maxInFlightAux_starts b _ 0 m (Nat.zero_le m)]
    rw [maxInFlightAux_finishes b _ (0 + b.length) (max m (0 + b.length)) (by omega)]
    have hrec := ih (max m (0 + b.length)) hbs
    simp only [batchTrace] at hrec
    have : 0 + b.length - b.length = 0 := by omega
    rw [this]
    calc maxInFlightAux (List.map _ bs).flatten 0 (max m (0 + b.length)) ≤
        max (max m (0 + b.length)) PARALLEL_LIMIT := hrec
      _ ≤ max m PARALLEL_LIMIT := by omega

theorem maxInFlight_batchTrace (bs : List (List (Nat × String)))
    (h : ∀ b ∈ bs, b.length ≤ PARALLEL_LIMIT) :
    maxInFlight (batchTrace bs) ≤ PARALLEL_LIMIT := by
  have := maxInFlightAux_batchTrace bs 0 h
  simpa [maxInFlight] using this

theorem foldl_inFlightStep_starts (b : List (Nat × String)) (c : Nat) :
    (b.map (fun p => Ev.started p.1)).foldl inFlightStep c = c + b.length := by
  induction b generalizing c with
  | nil => simp
  | cons x xs ih =>
    simp only [List.map_cons, List.foldl_cons, inFlightStep, ih, List.length_cons]
    omega

theorem foldl_inFlightStep_finishes (b : List (Nat × String)) (c : Nat) :
    (b.map (fun p => Ev.finished p.1)).foldl inFlightStep c = c - b.length := by
  induction b generalizing c with
  | nil => simp
  | cons x xs ih =>
    simp only [List.map_cons, List.foldl_cons, inFlightStep, ih, List.length_cons]
    omega

theorem inFlightEnd_batchTrace (bs : List (List (Nat × String))) :
    inFlightEnd (batchTrace bs) = 0 := by
  induction bs with
  | nil => simp [batchTrace, inFlightEnd]
  | cons b bs ih =>
    simp only [batchTrace, List.map_cons, List.flatten_cons, inFlightEnd] at ih ⊢
    rw [List.foldl_append, List.foldl_append]
    rw [foldl_inFlightStep_starts, foldl_inFlightStep_finishes]
    simpa using ih

/-! ## Lemmas: retry loop -/

theorem retryLoop_succ (a : Nat → Except String (List Nat)) (retries k : Nat) :
    retryLoop a (retries + 1) k =
      match a k with
      | Except.ok d => ([RetryEv.att k], Except.ok d)
      | Except.error e =>
        if retries = 0 then
          ([RetryEv.att k], Except.error e)
        else
          let rest := retryLoop a retries (k + 1)
          (RetryEv.att k :: RetryEv.sleep :: rest.1, rest.2) := by
  rfl

theorem attemptChunk_eq (a : Nat → Except String (List Nat)) :
    attemptChunk a =
      match a 0 with
      | Except.ok d => ([RetryEv.att 0], Except.ok d)
      | Except.error _ =>
        match a 1 with
        | Except.ok d => ([RetryEv.att 0, RetryEv.sleep, RetryEv.att 1], Except.ok d)
        | Except.error _ =>
          match a 2 with
          | Except.ok d =>
            ([RetryEv.att 0, RetryEv.sleep, RetryEv.att 1, RetryEv.sleep, RetryEv.att 2],
              Except.ok d)
          | Except.error e =>
            ([RetryEv.att 0, RetryEv.sleep, RetryEv.att 1, RetryEv.sleep, RetryEv.att 2],
              Except.error e) := by
  show retryLoop a (2 + 1) 0 = _
  rw [retryLoop_succ]
  rcases h0 : a 0 with e0 | d0
  · simp only []
    rw [show (2 : Nat) = 1 + 1 from rfl, retryLoop_succ]
    rcases h1 : a 1 with e1 | d1
    · simp only []
      rw [retryLoop_succ]
      rcases h2 : a 2 with e2 | d2 <;> simp
    · simp
  · simp

/-! ## Lemmas: batch processing -/

theorem processBatch_ok (att : Nat → Nat → Except String (List Nat))
    (data : Nat → List Nat) (b : List (Nat × String))
    (h : ∀ p ∈ b, (attemptChunk (att p.1)).2 = Except.ok (data p.1)) :
    processBatch att b = Except.ok (b.map (fun p => (p.1, data p.1))) := by
  induction b with
  | nil => simp [processBatch]
  | cons p ps ih =>
    have hp := h p (List.mem_cons_self p ps)
    have hps : ∀ q ∈ ps, (attemptChunk (att q.1)).2 = Except.ok (data q.1) :=
      fun q hq => h q (List.mem_cons_of_mem p hq)
    simp [processBatch, hp, ih hps]

theorem processBatches_ok (att : Nat → Nat → Except String (List Nat))
    (data : Nat → List Nat) (bs : List (List (Nat × String)))
    (h : ∀ p ∈ bs.flatten, (attemptChunk (att p.1)).2 = Except.ok (data p.1)) :
    processBatches att bs = Except.ok (bs.flatten.map (fun p => (p.1, data p.1))) := by
  induction bs with
  | nil => simp [processBatches]
  | cons b bs ih =>
    have hb : ∀ p ∈ b, (attemptChunk (att p.1)).2 = Except.ok (data p.1) := by
      intro p hp
      exact h p (by simp [hp])
    have hbs : ∀ p ∈ bs.flatten, (attemptChunk (att p.1)).2 = Except.ok (data p.1) := by
      intro p hp
      exact h p (by simp [hp])
    simp [processBatches, processBatch_ok att data b hb, ih hbs]

theorem processBatch_error_of_mem (att : Nat → Nat → Except String (List Nat))
    (b : List (Nat × String)) (p : Nat × String) (hp : p ∈ b)
    (he : ∃ e, (attemptChunk (att p.1)).2 = Except.error e) :
    ∃ e, processBatch att b = Except.error e := by
  induction b with
  | nil => simp at hp
  | cons q qs ih =>
    rcases List.mem_cons.mp hp with h | h
    · subst h
      rcases he with ⟨e, he⟩
      exact ⟨e, by simp [processBatch, he]⟩
    · rcases hq : (attemptChunk (att q.1)).2 with e | d
      · exact ⟨e, by simp [processBatch, hq]⟩
      · rcases ih h with ⟨e, hrec⟩
        exact ⟨e, by simp [processBatch, hq, hrec]⟩

theorem processBatches_error_of_mem (att : Nat → Nat → Except String (List Nat))
    (bs : List (List (Nat × String))) (p : Nat × String) (hp : p ∈ bs.flatten)
    (he : ∃ e, (attemptChunk (att p.1)).2 = Except.error e) :
    ∃ e, processBatches att bs = Except.error e := by
  induction bs with
  | nil => simp at hp
  | cons b bs ih =>
    rw [List.flatten_cons, List.mem_append] at hp
    rcases hp with h | h
    · rcases processBatch_error_of_mem att b p h he with ⟨e, hb⟩
      exact ⟨e, by simp [processBatches, hb]⟩
    · rcases hb : processBatch att b with e | rs
      · exact ⟨e, by simp [processBatches, hb]⟩
      · rcases ih h with ⟨e, hrec⟩
        exact ⟨e, by simp [processBatches, hb, hrec]⟩

/-! ## Lemmas: reassembly -/

theorem sortResults_eq_of_perm (l target : List (Nat × List Nat))
    (hp : l.Perm target) (hs : target.Pairwise (fun a b => a.1 < b.1)) :
    sortResults l = target := by
  have hperm : (sortResults l).Perm target :=
    (List.mergeSort_perm l _).trans hp
  have hsorted : (sortResults l).Pairwise (fun a b : Nat × List Nat => a.1 ≤ b.1) := by
    have h := @List.sorted_mergeSort (Nat × List Nat)
      (fun a b => decide (a.1 ≤ b.1))
      (fun a b c h1 h2 => by
        simp only [decide_eq_true_eq] at h1 h2 ⊢
        omega)
      (fun a b => by
        simp only [Bool.or_eq_true, decide_eq_true_eq]
        omega)
      l
    exact h.imp (fun h => by simpa using h)
  have hneT : target.Pairwise (fun a b : Nat × List Nat => a.1 ≠ b.1) :=
    hs.imp (fun h => Nat.ne_of_lt h)
  have hne : (sortResults l).Pairwise (fun a b : Nat × List Nat => a.1 ≠ b.1) :=
    (List.Perm.pairwise_iff (fun h => Ne.symm h) hperm).mpr hneT
  have hlt : (sortResults l).Pairwise (fun a b : Nat × List Nat => a.1 < b.1) :=
    (hsorted.and hne).imp (fun h => Nat.lt_of_le_of_ne h.1 h.2)
  haveI : IsAntisymm (Nat × List Nat) (fun a b => a.1 < b.1) :=
    ⟨fun a b h1 h2 => absurd h2 (Nat.lt_asymm h1)⟩
  exact List.eq_of_perm_of_sorted hperm hlt hs

theorem foldl_append_eq (chunks : List (List Nat)) (acc : List Nat) :
    chunks.foldl (fun a c => a ++ c) acc = acc ++ chunks.flatten := by
  induction chunks generalizing acc with
  | nil => simp
  | cons c cs ih => simp [ih]

theorem combinePcm_eq (chunks : List (List Nat)) :
    combinePcm chunks = chunks.flatten := by
  simp [combinePcm, foldl_append_eq]

theorem chunkedConcat_eq (l : List Nat) : chunkedConcat l = l := by
  induction l using chunkedConcat.induct with
  | case1 => simp [chunkedConcat]
  | case2 b bs ih =>
    rw [chunkedConcat, ih, List.take_append_drop]

/-! ## Lemmas: WAV construction -/

/-- Contiguity of a write list: each write starts where the previous one
ended. -/
def contigFrom : Nat → List (Nat × List Nat) → Prop
  | _, [] => True
  | off, w :: ws => w.1 = off ∧ contigFrom (off + w.2.length) ws

theorem writeBytesAt_next (w bs : List Nat) (tail : List Nat) :
    writeBytesAt (w ++ tail) w.length bs =
      (w ++ bs) ++ List.drop bs.length tail := by
  unfold writeBytesAt
  rw [List.take_left, List.drop_append]

theorem foldl_contiguous_writes (ws : List (Nat × List Nat)) :
    ∀ (w : List Nat) (m : Nat), contigFrom w.length ws →
      ws.foldl (fun b p => writeBytesAt b p.1 p.2) (w ++ List.replicate m 0) =
        (w ++ (ws.map (fun p => p.2)).flatten) ++
          List.replicate (m - ((ws.map (fun p => p.2)).flatten).length) 0 := by
  induction ws with
  | nil =>
    intro w m _
    simp
  | cons p ps ih =>
    intro w m hc
    rcases hc with ⟨hoff, hrest⟩
    rw [List.foldl_cons]
    rw [show writeBytesAt (w ++ List.replicate m 0) p.1 p.2 =
        writeBytesAt (w ++ List.replicate m 0) w.length p.2 from by rw [hoff]]
    rw [writeBytesAt_next, List.drop_replicate]
    have hrest2 : contigFrom (w ++ p.2).length ps := by
      simpa [List.length_append] using hrest
    rw [ih (w ++ p.2) (m - p.2.length) hrest2]
    simp only [List.map_cons, List.flatten_cons, List.append_assoc, List.length_append,
      Nat.sub_sub]

theorem wavHeaderBytes_length (n sr : Nat) :
    (wavHeaderBytes n sr).length = 44 := by
  simp [wavHeaderBytes, wavHeaderWrites, u32le, u16le, strBytes]

theorem createWavBlob_eq (pcm : List Nat) (sr : Nat) :
    createWavBlob pcm sr = wavHeaderBytes pcm.length sr ++ pcm := by
  have hcontig : contigFrom (([] : List Nat)).length (wavHeaderWrites pcm.length sr) := by
    simp [contigFrom, wavHeaderWrites, u32le, u16le, strBytes]
  have hfold := foldl_contiguous_writes (wavHeaderWrites pcm.length sr) [] (44 + pcm.length)
    hcontig
  have hflat : ((wavHeaderWrites pcm.length sr).map (fun p => p.2)).flatten =
      wavHeaderBytes pcm.length sr := rfl
  rw [hflat, wavHeaderBytes_length] at hfold
  show writeBytesAt
      ((wavHeaderWrites pcm.length sr).foldl (fun b w => writeBytesAt b w.1 w.2)
        (List.replicate (44 + pcm.length) 0)) 44 pcm = _
  rw [show (List.replicate (44 + pcm.length) (0 : Nat)) =
      ([] : List Nat) ++ List.replicate (44 + pcm.length) 0 from by simp]
  rw [hfold]
  have h44 : 44 + pcm.length - 44 = pcm.length := by omega
  rw [h44]
  simp only [List.nil_append]
  rw [show (44 : Nat) = (wavHeaderBytes pcm.length sr).length from
    (wavHeaderBytes_length pcm.length sr).symm]
  rw [writeBytesAt_next]
  simp

theorem wavHeaderBytes_explicit (n sr : Nat) :
    wavHeaderBytes n sr =
      [82, 73, 70, 70,
       (36 + n) % 256, (36 + n) / 256 % 256, (36 + n) / 65536 % 256,
       (36 + n) / 16777216 % 256,
       87, 65, 86, 69,
       102, 109, 116, 32,
       16, 0, 0, 0,
       1, 0,
       1, 0,
       sr % 256, sr / 256 % 256, sr / 65536 % 256, sr / 16777216 % 256,
       sr * 2 % 256, sr * 2 / 256 % 256, sr * 2 / 65536 % 256, sr * 2 / 16777216 % 256,
       2, 0,
       16, 0,
       100, 97, 116, 97,
       n % 256, n / 256 % 256, n / 65536 % 256, n / 16777216 % 256] := by
  simp [wavHeaderBytes, wavHeaderWrites, u32le, u16le, strBytes]

theorem u32le_decode (v : Nat) (hv : v < 4294967296) :
    v % 256 + 256 * (v / 256 % 256) + 65536 * (v / 65536 % 256) +
      16777216 * (v / 16777216 % 256) = v := by
  omega

/-! ## Lemmas: extract-pdf loop -/

theorem extractLoop_ok (extract : UploadedFile → Except String String)
    (txt : UploadedFile → String) (fs : List UploadedFile)
    (h : ∀ f ∈ fs, extract f = Except.ok (txt f)) :
    extractLoop extract fs = Except.ok (fs.map (fun f => (f.originalname, txt f))) := by
  induction fs with
  | nil => simp [extractLoop]
  | cons f fs ih =>
    have hf := h f (List.mem_cons_self f fs)
    have hfs : ∀ g ∈ fs, extract g = Except.ok (txt g) :=
      fun g hg => h g (List.mem_cons_of_mem f hg)
    simp [extractLoop, hf, ih hfs]

theorem extractLoop_error_of_mem (extract : UploadedFile → Except String String)
    (fs : List UploadedFile) (f : UploadedFile) (hf : f ∈ fs)
    (he : ∃ e, extract f = Except.error e) :
    ∃ e, extractLoop extract fs = Except.error e := by
  induction fs with
  | nil => simp at hf
  | cons g gs ih =>
    rcases List.mem_cons.mp hf with h | h
    · subst h
      rcases he with ⟨e, he⟩
      exact ⟨e, by simp [extractLoop, he]⟩
    · rcases hg : extract g with e | t
      · exact ⟨e, by simp [extractLoop, hg]⟩
      · rcases ih h with ⟨e, hrec⟩
        exact ⟨e, by simp [extractLoop, hg, hrec]⟩

/-! ## Claim theorems -/

/-- C9: the base64 re-encoding step, which builds the binary string from
the combined PCM array in 32KB (0x8000-byte) slices, produces exactly
the same string as mapping each byte of the combined array to its
character one at a time, for every byte array (including lengths not
divisible by 0x8000); hence the same base64 output. -/
theorem c9_chunked_binary_equiv (combinedPcm : List Nat) :
    chunkedConcat combinedPcm = binaryOneByOne combinedPcm ∧
    ∀ btoaF : List Nat → String,
      btoaF (chunkedConcat combinedPcm) = btoaF (binaryOneByOne combinedPcm) := by
  have h : chunkedConcat combinedPcm = binaryOneByOne combinedPcm := by
    rw [chunkedConcat_eq]
    simp [binaryOneByOne]
  exact ⟨h, fun btoaF => by rw [h]⟩

/-- C10: when the script's lines array is empty, generatePodcastAudio
produces zero chunk prompts, collects zero PCM chunks, and always
rejects with the error "Failed to generate audio. No audio data
returned." (it never resolves with a base64 string). -/
theorem c10_empty_script_throws (title : String) (showNotes coverImageUrl : Option String)
    (speakers : List Speaker) (att : Nat → Nat → Except String (List Nat))
    (reorder : List (Nat × List Nat) → List (Nat × List Nat))
    (hperm : ∀ l, (reorder l).Perm l) :
    chunkPrompts ⟨title, [], showNotes, coverImageUrl⟩ speakers = [] ∧
    generatePodcastAudio ⟨title, [], showNotes, coverImageUrl⟩ speakers att reorder =
      Except.error "Failed to generate audio. No audio data returned." := by
  have hcp : chunkPrompts (⟨title, [], showNotes, coverImageUrl⟩ : PodcastScript) speakers
      = [] := by
    simp [chunkPrompts, chunkPromptsAux]
  refine ⟨hcp, ?_⟩
  have hreorder : reorder [] = [] := List.Perm.eq_nil (hperm [])
  simp [generatePodcastAudio, hcp, batches_nil, processBatches, hreorder, sortResults,
    List.mergeSort]

/-- Witness for C10 at a concrete empty script. -/
theorem c10_witness :
    generatePodcastAudio ⟨"t", [], none, none⟩ [] (fun _ _ => Except.ok []) (fun l => l) =
      Except.error "Failed to generate audio. No audio data returned." :=
  (c10_empty_script_throws "t" none none [] (fun _ _ => Except.ok []) (fun l => l)
    (fun l => List.Perm.refl l)).2

/-- C8: the DELETE /api/speakers/:id handler removes only rows whose id
matches and whose isPrebuilt flag is 0; prebuilt rows and rows with
other ids are untouched (same multiplicity, original order), and the
response is always success: true, including for prebuilt or nonexistent
ids. -/
theorem c8_delete_speaker (db : List SpeakerRow) (id : Nat) :
    (deleteSpeakerHandler db id).2 = { success := true } ∧
    List.Sublist (deleteSpeakerHandler db id).1 db ∧
    (∀ r ∈ db, r.isPrebuilt ≠ 0 →
      List.count r (deleteSpeakerHandler db id).1 = List.count r db) ∧
    (∀ r ∈ db, r.id ≠ id →
      List.count r (deleteSpeakerHandler db id).1 = List.count r db) ∧
    (∀ r : SpeakerRow, r.id = id → r.isPrebuilt = 0 →
      r ∉ (deleteSpeakerHandler db id).1) := by
  refine ⟨rfl, List.filter_sublist db, ?_, ?_, ?_⟩
  · intro r _ hpre
    apply List.count_filter
    simp [hpre]
  · intro r _ hid
    apply List.count_filter
    simp [hid]
  · intro r hid hpre hmem
    rw [deleteSpeakerHandler, List.mem_filter] at hmem
    simp [hid, hpre] at hmem

/-- Witness for C8: a two-row table where only the non-prebuilt row with
the requested id is removed. -/
theorem c8_witness :
    List.count ({ id := 1, name := "a", voice := "Zephyr", isPrebuilt := 1 } : SpeakerRow)
        (deleteSpeakerHandler
          [({ id := 1, name := "a", voice := "Zephyr", isPrebuilt := 1 } : SpeakerRow),
           ({ id := 1, name := "b", voice := "Kore" } : SpeakerRow)] 1).1 =
      List.count ({ id := 1, name := "a", voice := "Zephyr", isPrebuilt := 1 } : SpeakerRow)
        [({ id := 1, name := "a", voice := "Zephyr", isPrebuilt := 1 } : SpeakerRow),
         ({ id := 1, name := "b", voice := "Kore" } : SpeakerRow)] :=
  (c8_delete_speaker
    [({ id := 1, name := "a", voice := "Zephyr", isPrebuilt := 1 } : SpeakerRow),
     ({ id := 1, name := "b", voice := "Kore" } : SpeakerRow)] 1).2.2.1
    ({ id := 1, name := "a", voice := "Zephyr", isPrebuilt := 1 } : SpeakerRow)
    (by decide) (by decide)

/-- C7: the POST /api/extract-pdf handler responds 400 (error body) iff
no files were uploaded; otherwise it responds 500 if extraction of any
uploaded file rejects, and else returns exactly one (name, text) entry
per uploaded file, in upload order. -/
theorem c7_extract_pdf (extract : UploadedFile → Except String String) :
    (extractPdfHandler none extract = ExtractPdfResponse.badRequest "No files uploaded") ∧
    (extractPdfHandler (some []) extract = ExtractPdfResponse.badRequest "No files uploaded") ∧
    (∀ fs : List UploadedFile, fs ≠ [] → ∀ b : String,
      extractPdfHandler (some fs) extract ≠ ExtractPdfResponse.badRequest b) ∧
    (∀ fs : List UploadedFile, ∀ f ∈ fs, (∃ e, extract f = Except.error e) →
      extractPdfHandler (some fs) extract =
        ExtractPdfResponse.serverError "Failed to extract PDF text") ∧
    (∀ (fs : List UploadedFile) (txt : UploadedFile → String), fs ≠ [] →
      (∀ f ∈ fs, extract f = Except.ok (txt f)) →
      extractPdfHandler (some fs) extract =
        ExtractPdfResponse.ok (fs.map (fun f => (f.originalname, txt f)))) := by
  refine ⟨rfl, rfl, ?_, ?_, ?_⟩
  · intro fs hne b
    have hlen : fs.length ≠ 0 := by simpa using fun h => hne (List.length_eq_zero.mp h)
    rcases h : extractLoop extract fs with e | rs <;>
      simp [extractPdfHandler, hlen, h]
  · intro fs f hf he
    have hne : fs ≠ [] := by
      intro h
      rw [h] at hf
      simp at hf
    have hlen : fs.length ≠ 0 := by simpa using fun h => hne (List.length_eq_zero.mp h)
    rcases extractLoop_error_of_mem extract fs f hf he with ⟨e, hl⟩
    simp [extractPdfHandler, hlen, hl]
  · intro fs txt hne hok
    have hlen : fs.length ≠ 0 := by simpa using fun h => hne (List.length_eq_zero.mp h)
    simp [extractPdfHandler, hlen, extractLoop_ok extract txt fs hok]

/-- Witness for C7: one successfully extracted upload. -/
theorem c7_witness :
    extractPdfHandler (some [{ originalname := "a.pdf", buffer := [37] }])
        (fun _ => Except.ok "text") =
      ExtractPdfResponse.ok [("a.pdf", "text")] :=
  (c7_extract_pdf (fun _ => Except.ok "text")).2.2.2.2
    [{ originalname := "a.pdf", buffer := [37] }] (fun _ => "text")
    (by decide) (fun f _ => rfl)

/-- Field-read helper: the RIFF chunk size field (offset 4) of the blob,
before decoding. -/
theorem readU32_wav_4 (n sr : Nat) (pcm : List Nat) :
    readU32 (wavHeaderBytes n sr ++ pcm) 4 =
      (36 + n) % 256 + 256 * ((36 + n) / 256 % 256) + 65536 * ((36 + n) / 65536 % 256) +
        16777216 * ((36 + n) / 16777216 % 256) := by
  rw [wavHeaderBytes_explicit]
  rfl

/-- Field-read helper: the sample-rate field (offset 24). -/
theorem readU32_wav_24 (n sr : Nat) (pcm : List Nat) :
    readU32 (wavHeaderBytes n sr ++ pcm) 24 =
      sr % 256 + 256 * (sr / 256 % 256) + 65536 * (sr / 65536 % 256) +
        16777216 * (sr / 16777216 % 256) := by
  rw [wavHeaderBytes_explicit]
  rfl

/-- Field-read helper: the byte-rate field (offset 28). -/
theorem readU32_wav_28 (n sr : Nat) (pcm : List Nat) :
    readU32 (wavHeaderBytes n sr ++ pcm) 28 =
      sr * 2 % 256 + 256 * (sr * 2 / 256 % 256) + 65536 * (sr * 2 / 65536 % 256) +
        16777216 * (sr * 2 / 16777216 % 256) := by
  rw [wavHeaderBytes_explicit]
  rfl

/-- Field-read helper: the data chunk length field (offset 40). -/
theorem readU32_wav_40 (n sr : Nat) (pcm : List Nat) :
    readU32 (wavHeaderBytes n sr ++ pcm) 40 =
      n % 256 + 256 * (n / 256 % 256) + 65536 * (n / 65536 % 256) +
        16777216 * (n / 16777216 % 256) := by
  rw [wavHeaderBytes_explicit]
  rfl

/-- Field-read helper: the audio-format (offset 20), channel-count
(offset 22) and bits-per-sample (offset 34) fields. -/
theorem readU16_wav_fields (n sr : Nat) (pcm : List Nat) :
    readU16 (wavHeaderBytes n sr ++ pcm) 20 = 1 ∧
    readU16 (wavHeaderBytes n sr ++ pcm) 22 = 1 ∧
    readU16 (wavHeaderBytes n sr ++ pcm) 32 = 2 ∧
    readU16 (wavHeaderBytes n sr ++ pcm) 34 = 16 := by
  rw [wavHeaderBytes_explicit]
  refine ⟨rfl, rfl, rfl, rfl⟩

/-- C5 (amended): the container written by createWavBlob begins with a
header consisting of thirteen fields: the blob's first 44 bytes are
exactly the concatenated bytes of the thirteen header writes. -/
theorem c5_wav_header_thirteen_fields (sr : Nat) (pcm : List Nat) :
    (wavHeaderWrites pcm.length sr).length = 13 ∧
    (createWavBlob pcm sr).take 44 = wavHeaderBytes pcm.length sr := by
  refine ⟨rfl, ?_⟩
  rw [createWavBlob_eq]
  rw [show (44 : Nat) = (wavHeaderBytes pcm.length sr).length from
    (wavHeaderBytes_length pcm.length sr).symm]
  exact List.take_left _ _

/-- Counterexample for C5 as stated: at the concrete input (empty PCM,
sample rate 24000) the header written by createWavBlob has thirteen
fields, not fifteen. -/
theorem c5_counterexample :
    (wavHeaderWrites ([] : List Nat).length 24000).length = 13 ∧
    ¬((wavHeaderWrites ([] : List Nat).length 24000).length = 15) := by
  decide

/-- C6 (amended): for a PCM input of n bytes and a sample rate with
36 + n < 2^32 and sampleRate * 2 < 2^32 (the 32-bit header fields store
values modulo 2^32), createWavBlob yields exactly 44 + n bytes: a
44-byte header whose RIFF chunk size field reads 36 + n, format tag 1,
1 channel, sample rate and byte rate sampleRate * 2, block align 2,
16 bits per sample, data length n, followed by the PCM data unchanged. -/
theorem c6_createWavBlob (pcm : List Nat) (sr : Nat)
    (h1 : 36 + pcm.length < 4294967296) (h2 : sr * 2 < 4294967296) :
    (createWavBlob pcm sr).length = 44 + pcm.length ∧
    (createWavBlob pcm sr).take 44 = wavHeaderBytes pcm.length sr ∧
    readU32 (createWavBlob pcm sr) 4 = 36 + pcm.length ∧
    readU16 (createWavBlob pcm sr) 20 = 1 ∧
    readU16 (createWavBlob pcm sr) 22 = 1 ∧
    readU32 (createWavBlob pcm sr) 24 = sr ∧
    readU32 (createWavBlob pcm sr) 28 = sr * 2 ∧
    readU16 (createWavBlob pcm sr) 32 = 2 ∧
    readU16 (createWavBlob pcm sr) 34 = 16 ∧
    readU32 (createWavBlob pcm sr) 40 = pcm.length ∧
    List.drop 44 (createWavBlob pcm sr) = pcm := by
  refine ⟨?_, ?_, ?_, ?_, ?_, ?_, ?_, ?_, ?_, ?_, ?_⟩ <;>
    rw [createWavBlob_eq]
  · rw [List.length_append, wavHeaderBytes_length]
  · rw [show (44 : Nat) = (wavHeaderBytes pcm.length sr).length from
      (wavHeaderBytes_length pcm.length sr).symm]
    exact List.take_left _ _
  · rw [readU32_wav_4]
    exact u32le_decode (36 + pcm.length) h1
  · exact (readU16_wav_fields pcm.length sr pcm).1
  · exact (readU16_wav_fields pcm.length sr pcm).2.1
  · rw [readU32_wav_24]
    exact u32le_decode sr (by omega)
  · rw [readU32_wav_28]
    exact u32le_decode (sr * 2) h2
  · exact (readU16_wav_fields pcm.length sr pcm).2.2.1
  · exact (readU16_wav_fields pcm.length sr pcm).2.2.2
  · rw [readU32_wav_40]
    exact u32le_decode pcm.length (by omega)
  · rw [show (44 : Nat) = (wavHeaderBytes pcm.length sr).length from
      (wavHeaderBytes_length pcm.length sr).symm]
    rw [List.drop_left]

/-- Witness for C6 at a concrete input: one PCM byte, sample rate
24000. -/
theorem c6_witness :
    readU32 (createWavBlob [7] 24000) 28 = 48000 ∧
    List.drop 44 (createWavBlob [7] 24000) = [7] :=
  ⟨((c6_createWavBlob [7] 24000 (by decide) (by decide)).2.2.2.2.2.2.1),
   ((c6_createWavBlob [7] 24000 (by decide) (by decide)).2.2.2.2.2.2.2.2.2.2)⟩

/-- Counterexample for C6 as stated ("for every sample rate"): at the
concrete input (empty PCM, sample rate 2^31 = 2147483648) the byte-rate
field of the produced blob reads 0, not sampleRate * 2 = 2^32, because
DataView.setUint32 truncates to 32 bits. -/
theorem c6_counterexample :
    readU32 (createWavBlob [] 2147483648) 28 = 0 ∧
    (2147483648 : Nat) * 2 ≠ 0 := by
  refine ⟨?_, by norm_num⟩
  rw [createWavBlob_eq]
  rw [readU32_wav_28]

/-- C2: generatePodcastAudio partitions the script's lines into
consecutive chunks of the fixed size CHUNK_SIZE = 10 (the last chunk
possibly shorter), preserving line order: exactly ceil(n / 10) chunk
prompts are produced, every line appears in exactly one chunk (the
chunks concatenate back to the original lines), every chunk is nonempty
with at most 10 lines, every chunk but the last has exactly 10, and the
k-th chunk prompt is built from the k-th chunk. -/
theorem c2_fixed_size_chunking (script : PodcastScript) (speakers : List Speaker) :
    CHUNK_SIZE = 10 ∧
    (chunkPrompts script speakers).length =
      (script.lines.length + CHUNK_SIZE - 1) / CHUNK_SIZE ∧
    (chunkedLines script.lines).flatten = script.lines ∧
    (∀ c ∈ chunkedLines script.lines, c.length ≤ CHUNK_SIZE ∧ c ≠ []) ∧
    (∀ i, i + 1 < (chunkedLines script.lines).length →
      ((chunkedLines script.lines).getD i []).length = CHUNK_SIZE) ∧
    chunkPrompts script speakers =
      (List.enumFrom 0 (chunkedLines script.lines)).map
        (fun p => (p.1, mkChunkPrompt script speakers p.2 p.1)) := by
  refine ⟨rfl, ?_, chunkedLines_flatten script.lines,
    fun c hc => chunkedLines_mem script.lines c hc,
    fun i hi => chunkedLines_full script.lines i hi,
    chunkPrompts_eq script speakers⟩
  rw [chunkPrompts_length]
  rfl

/-- Witness for C2: a 12-line script gives 2 chunk prompts and a full
first chunk. -/
theorem c2_witness :
    (chunkPrompts ⟨"t", List.replicate 12 ⟨"A", "x"⟩, none, none⟩ []).length = 2 := by
  have h := (c2_fixed_size_chunking ⟨"t", List.replicate 12 ⟨"A", "x"⟩, none, none⟩ []).2.1
  simpa [CHUNK_SIZE] using h

/-- C3: the chunk prompts are processed in successive batches of at most
PARALLEL_LIMIT = 3 requests: the batches partition the prompt list in
order, each batch has at most 3 requests, along the batch-loop's event
trace at most 3 requests are ever in flight simultaneously, and after
any prefix of whole batches no request is still in flight (so a new
batch starts only after every request of the previous batches has
completed). -/
theorem c3_bounded_parallelism (script : PodcastScript) (speakers : List Speaker) :
    PARALLEL_LIMIT = 3 ∧
    (batches (chunkPrompts script speakers)).flatten = chunkPrompts script speakers ∧
    (∀ b ∈ batches (chunkPrompts script speakers), b.length ≤ PARALLEL_LIMIT) ∧
    maxInFlight (batchTrace (batches (chunkPrompts script speakers))) ≤ PARALLEL_LIMIT ∧
    (∀ k, inFlightEnd (batchTrace (List.take k (batches (chunkPrompts script speakers)))) = 0) := by
  refine ⟨rfl, batches_flatten _, fun b hb => batches_mem_length _ b hb, ?_, ?_⟩
  · exact maxInFlight_batchTrace _ (fun b hb => batches_mem_length _ b hb)
  · intro k
    exact inFlightEnd_batchTrace _

/-- Witness for C3: a 45-line script gives 5 chunk prompts in 2 batches
with at most 3 requests in flight. -/
theorem c3_witness :
    maxInFlight (batchTrace (batches
      (chunkPrompts ⟨"t", List.replicate 45 ⟨"A", "x"⟩, none, none⟩ []))) ≤ PARALLEL_LIMIT :=
  (c3_bounded_parallelism ⟨"t", List.replicate 45 ⟨"A", "x"⟩, none, none⟩ []).2.2.2.1

/-! ## Lemmas: retry-loop consequences for C4 -/

theorem attemptChunk_filter_le (a : Nat → Except String (List Nat)) :
    ((attemptChunk a).1.filter isAttemptEv).length ≤ 3 := by
  rw [attemptChunk_eq]
  rcases h0 : a 0 with e0 | d0
  · rcases h1 : a 1 with e1 | d1
    · rcases h2 : a 2 with e2 | d2 <;> simp only [h0, h1, h2] <;> decide
    · simp only [h0, h1]
      decide
  · simp only [h0]
    decide

theorem attemptChunk_sleep_between (a : Nat → Except String (List Nat)) :
    (attemptChunk a).1.Chain'
      (fun x y => ¬(isAttemptEv x = true ∧ isAttemptEv y = true)) := by
  rw [attemptChunk_eq]
  rcases h0 : a 0 with e0 | d0
  · rcases h1 : a 1 with e1 | d1
    · rcases h2 : a 2 with e2 | d2 <;> simp only [h0, h1, h2] <;>
        simp [List.chain'_cons, isAttemptEv]
    · simp only [h0, h1]
      simp [List.chain'_cons, isAttemptEv]
  · simp only [h0]
    simp [List.chain'_cons, isAttemptEv]

theorem attemptChunk_error_iff (a : Nat → Except String (List Nat)) (e : String) :
    (attemptChunk a).2 = Except.error e ↔
      (∃ e0 e1, a 0 = Except.error e0 ∧ a 1 = Except.error e1 ∧
        a 2 = Except.error e) := by
  rw [attemptChunk_eq]
  rcases h0 : a 0 with e0 | d0
  · rcases h1 : a 1 with e1 | d1
    · rcases h2 : a 2 with e2 | d2 <;> simp [h0, h1, h2]
    · simp [h0, h1]
  · simp [h0]

theorem generatePodcastAudio_error_case (script : PodcastScript) (speakers : List Speaker)
    (att : Nat → Nat → Except String (List Nat))
    (reorder : List (Nat × List Nat) → List (Nat × List Nat)) (e : String)
    (h : processBatches att (batches (chunkPrompts script speakers)) = Except.error e) :
    generatePodcastAudio script speakers att reorder = Except.error e := by
  simp [generatePodcastAudio, h]

theorem generatePodcastAudio_ok_case (script : PodcastScript) (speakers : List Speaker)
    (att : Nat → Nat → Except String (List Nat))
    (reorder : List (Nat × List Nat) → List (Nat × List Nat)) (rs : List (Nat × List Nat))
    (h : processBatches att (batches (chunkPrompts script speakers)) = Except.ok rs) :
    generatePodcastAudio script speakers att reorder =
      if ((sortResults (reorder rs)).map (fun r => r.2)).length = 0 then
        Except.error "Failed to generate audio. No audio data returned."
      else
        Except.ok (chunkedConcat (combinePcm
          ((sortResults (reorder rs)).map (fun r => r.2)))) := by
  simp [generatePodcastAudio, h]

/-- C4: for every chunk, at most 3 TTS attempts are made; a backoff wait
separates any two consecutive attempts (no two adjacent attempt events);
the chunk's processing ends in an error exactly when all three allowed
attempts fail (the error of the last attempt); and when any chunk of the
prompt list fails after its retries, generatePodcastAudio rejects
instead of returning partial audio. -/
theorem c4_retry_backoff_propagation (a : Nat → Except String (List Nat)) :
    ((attemptChunk a).1.filter isAttemptEv).length ≤ 3 ∧
    (attemptChunk a).1.Chain'
      (fun x y => ¬(isAttemptEv x = true ∧ isAttemptEv y = true)) ∧
    (∀ e, (attemptChunk a).2 = Except.error e ↔
      (∃ e0 e1, a 0 = Except.error e0 ∧ a 1 = Except.error e1 ∧
        a 2 = Except.error e)) ∧
    (∀ (script : PodcastScript) (speakers : List Speaker)
        (att : Nat → Nat → Except String (List Nat))
        (reorder : List (Nat × List Nat) → List (Nat × List Nat)) (p : Nat × String),
      p ∈ chunkPrompts script speakers →
      (∃ e, (attemptChunk (att p.1)).2 = Except.error e) →
      ∃ e, generatePodcastAudio script speakers att reorder = Except.error e) := by
  refine ⟨attemptChunk_filter_le a, attemptChunk_sleep_between a,
    fun e => attemptChunk_error_iff a e, ?_⟩
  intro script speakers att reorder p hp he
  have hp2 : p ∈ (batches (chunkPrompts script speakers)).flatten := by
    rw [batches_flatten]
    exact hp
  rcases processBatches_error_of_mem att _ p hp2 he with ⟨e, hb⟩
  exact ⟨e, generatePodcastAudio_error_case script speakers att reorder e hb⟩

/-- Witness for C4: an oracle that always throws makes the chunk end in
the last attempt's error. -/
theorem c4_witness :
    (attemptChunk (fun _ => Except.error "boom")).2 = Except.error "boom" :=
  ((c4_retry_backoff_propagation (fun _ => Except.error "boom")).2.2.1 "boom").mpr
    ⟨"boom", "boom", rfl, rfl, rfl⟩

/-- C1: when every chunk's retry loop succeeds, the binary PCM sequence
produced by generatePodcastAudio is the concatenation of the per-chunk
audio byte arrays in increasing chunk index (the script's original
order), for every completion order of the chunk requests, because the
results are sorted by index before concatenation. -/
theorem c1_in_order_reassembly (script : PodcastScript) (speakers : List Speaker)
    (att : Nat → Nat → Except String (List Nat)) (data : Nat → List Nat)
    (reorder : List (Nat × List Nat) → List (Nat × List Nat))
    (hperm : ∀ l, (reorder l).Perm l)
    (hok : ∀ i, i < totalChunks script → (attemptChunk (att i)).2 = Except.ok (data i))
    (hne : script.lines ≠ []) :
    generatePodcastAudio script speakers att reorder =
      Except.ok (((List.range (totalChunks script)).map data).flatten) := by
  have hmem : ∀ p ∈ (batches (chunkPrompts script speakers)).flatten,
      (attemptChunk (att p.1)).2 = Except.ok (data p.1) := by
    intro p hp
    rw [batches_flatten] at hp
    have h1 : p.1 ∈ (chunkPrompts script speakers).map Prod.fst :=
      List.mem_map_of_mem Prod.fst hp
    rw [chunkPrompts_map_fst] at h1
    exact hok p.1 (List.mem_range.mp h1)
  have hpb := processBatches_ok att data (batches (chunkPrompts script speakers)) hmem
  rw [batches_flatten] at hpb
  have htarget : (chunkPrompts script speakers).map (fun p => (p.1, data p.1)) =
      (List.range (totalChunks script)).map (fun i => (i, data i)) := by
    rw [← chunkPrompts_map_fst script speakers, List.map_map]
    rfl
  have hsortedT : ((List.range (totalChunks script)).map
      (fun i => (i, data i))).Pairwise (fun a b : Nat × List Nat => a.1 < b.1) := by
    rw [List.pairwise_map]
    exact List.pairwise_lt_range (totalChunks script)
  have hsort : sortResults (reorder ((chunkPrompts script speakers).map
      (fun p => (p.1, data p.1)))) =
      (List.range (totalChunks script)).map (fun i => (i, data i)) := by
    apply sortResults_eq_of_perm
    · exact (hperm _).trans (by rw [htarget])
    · exact hsortedT
  have hk : totalChunks script ≠ 0 := by
    have hlen : script.lines.length ≠ 0 := fun h => hne (List.length_eq_zero.mp h)
    simp only [totalChunks, CHUNK_SIZE]
    omega
  rw [generatePodcastAudio_ok_case script speakers att reorder _ hpb]
  rw [hsort, List.map_map, List.length_map, List.length_range]
  rw [if_neg hk]
  rw [combinePcm_eq, chunkedConcat_eq]
  rfl

/-- Witness for C1: an 11-line script (2 chunks), chunk i yielding the
single byte i, with the completion order fully reversed; the output is
still chunk 0's audio followed by chunk 1's. -/
theorem c1_witness :
    generatePodcastAudio ⟨"t", List.replicate 11 ⟨"A", "x"⟩, none, none⟩ []
        (fun i _ => Except.ok [i]) List.reverse = Except.ok [0, 1] := by
  have h := c1_in_order_reassembly ⟨"t", List.replicate 11 ⟨"A", "x"⟩, none, none⟩ []
    (fun i _ => Except.ok [i]) (fun i => [i]) List.reverse
    (fun l => List.reverse_perm l) (fun i _ => rfl) (by simp)
  rw [h]
  rfl

/-- Witness for C9 at a concrete byte array whose length is not a
multiple of 0x8000. -/
theorem c9_witness : chunkedConcat [1, 2, 3] = binaryOneByOne [1, 2, 3] :=
  (c9_chunked_binary_equiv [1, 2, 3]).1

/-- Witness for C5 at a concrete input. -/
theorem c5_witness : (wavHeaderWrites ([9] : List Nat).length 8000).length = 13 :=
  (c5_wav_header_thirteen_fields 8000 [9]).1
